import Mathlib

/-!
# Verification of the SectionChoose schedule-builder core (`src/app.py`)

Shallow embedding of the conflict-detection and schedule-state engine of
`app.py`.  A schedule entry is one per-day row of the course data frame
(the dictionaries stored in `st.session_state.schedule`).  Only the fields
the core functions read are modelled:

* `courseCode`     — column `Course Code`
* `sec`            — column `Section` (`section` is a Lean keyword)
* `daysList`       — column `Days_List` (a Python list of day strings)
* `startTime24`    — column `Start_Time_24hr` (Python int)
* `endTime24`      — column `End_Time_24hr` (Python int)
* `startTimeDisp`  — column `Start Time` (display string)
* `endTimeDisp`    — column `End Time` (display string)

Columns such as `Faculty Full Name` and `Day` are only used for rendering
and never read by `check_for_conflict`, `add_section_to_schedule` or
`remove_section_from_schedule`, so they are omitted.
-/

structure Meeting where
  courseCode : String
  sec : String
  daysList : List String
  startTime24 : Int
  endTime24 : Int
  startTimeDisp : String
  endTimeDisp : String
deriving DecidableEq, Repr

/-- The clash-details dictionary built inside `check_for_conflict`
(`clash_details` in `app.py`): four string fields. -/
structure ClashDetails where
  newSection : String
  clashingSection : String
  conflictDays : String
  timeRange : String
deriving DecidableEq, Repr

/-- `find_common_elements(list_a, list_b)` = `list(set(list_a) & set(list_b))`.
Python's set-iteration order is unspecified; the model fixes the
first-occurrence order of `list_a` and removes duplicates, which has the same
underlying set of elements.  No claim depends on the order. -/
def find_common_elements (list_a list_b : List String) : List String :=
  (list_a.filter (fun x => x ∈ list_b)).dedup

/-- The `clash_details` dictionary constructed at the point of a detected
conflict in `check_for_conflict` (lines 76–81 of `app.py`):
`New_Section`, `Clashing_Section`, `Conflict_Days` (the common days joined
with a comma), and `Time_Range` (the NEW section's display start/end). -/
def mkClashDetails (new_section existing_section : Meeting) : ClashDetails :=
  { newSection := new_section.courseCode ++ " " ++ new_section.sec
    clashingSection := existing_section.courseCode ++ " " ++ existing_section.sec
    conflictDays := String.intercalate ", "
      (find_common_elements new_section.daysList existing_section.daysList)
    timeRange := new_section.startTimeDisp ++ " - " ++ new_section.endTimeDisp }

/-- `check_for_conflict(new_section, current_schedule_list)`.
Python returns the pair `(True, clash_details)` or `(False, None)`;
the faithful embedding is an `Option ClashDetails`.  The loop walks the
schedule in stored order; a meeting with empty day intersection is skipped;
on a non-empty day intersection the time test
`new_start < existing_end and existing_start < new_end` decides, and the
first hit returns immediately. -/
def check_for_conflict (new_section : Meeting) :
    List Meeting → Option ClashDetails
  | [] => none
  | existing_section :: rest =>
    let common_days :=
      find_common_elements new_section.daysList existing_section.daysList
    if common_days.isEmpty then
      check_for_conflict new_section rest
    else if new_section.startTime24 < existing_section.endTime24 ∧
        existing_section.startTime24 < new_section.endTime24 then
      some (mkClashDetails new_section existing_section)
    else
      check_for_conflict new_section rest

/-- The outcome `add_section_to_schedule` surfaces to the user:
`st.error("Section data not found.")`, the clash `st.error`, the
`st.success` on insertion, or the `st.warning` for an already-present
section. -/
inductive AddResult where
  | notFound
  | rejected (details : ClashDetails)
  | added
  | alreadyAdded
deriving DecidableEq, Repr

/-- The row lookup at the top of `add_section_to_schedule`:
`df_courses[(df_courses['Course Code'] == course_code) & (df_courses['Section'] == section)]`. -/
def sectionRows (catalog : List Meeting) (course_code s : String) :
    List Meeting :=
  catalog.filter (fun m => m.courseCode == course_code && m.sec == s)

/-- The per-component conflict loop of `add_section_to_schedule`
(lines 138–141): check each row of the candidate section against the whole
schedule, breaking at the first row that conflicts. -/
def scanRows : List Meeting → List Meeting → Option ClashDetails
  | [], _ => none
  | row :: rows, schedule =>
    match check_for_conflict row schedule with
    | some details => some details
    | none => scanRows rows schedule

/-- `add_section_to_schedule(course_code, section)` as a pure function of the
catalog (`df_courses`) and the schedule state (`st.session_state.schedule`),
returning the surfaced outcome together with the new schedule state.
Branch order follows the source exactly: empty row lookup → `notFound`;
then the conflict scan (before any duplicate check) → `rejected`;
then the duplicate check → `alreadyAdded`; else append all rows → `added`. -/
def add_section_to_schedule (catalog : List Meeting)
    (course_code s : String) (schedule : List Meeting) :
    AddResult × List Meeting :=
  let rows := sectionRows catalog course_code s
  if rows.isEmpty then
    (.notFound, schedule)
  else
    match scanRows rows schedule with
    | some details => (.rejected details, schedule)
    | none =>
      if schedule.any (fun m => m.courseCode == course_code && m.sec == s) then
        (.alreadyAdded, schedule)
      else
        (.added, schedule ++ rows)

/-- `remove_section_from_schedule(course_code, section)`: keep exactly the
rows whose key differs.  The Python function mutates the session state and
returns `None` — it surfaces no result value or message. -/
def remove_section_from_schedule (course_code s : String)
    (schedule : List Meeting) : List Meeting :=
  schedule.filter (fun m => !(m.courseCode == course_code && m.sec == s))

/-- One user interaction on the schedule store: an Add button press or a
Remove button press for a `(courseCode, section)` key. -/
inductive Op where
  | add (course_code s : String)
  | remove (course_code s : String)
deriving DecidableEq, Repr

/-- Apply one interaction to the schedule state (the result message is
discarded, as the UI does not feed it back into the state). -/
def applyOp (catalog : List Meeting) (schedule : List Meeting) : Op → List Meeting
  | .add course_code s => (add_section_to_schedule catalog course_code s schedule).2
  | .remove course_code s => remove_section_from_schedule course_code s schedule

/-- The schedule reached from the empty schedule by a sequence of
interactions (the session starts with `st.session_state.schedule = []`). -/
def runOps (catalog : List Meeting) (ops : List Op) : List Meeting :=
  ops.foldl (applyOp catalog) []

/-- The pure conflict predicate between two meetings: a common day together
with the half-open time-overlap test performed by `check_for_conflict`. -/
def clashes (a b : Meeting) : Prop :=
  (∃ x, x ∈ a.daysList ∧ x ∈ b.daysList) ∧
    a.startTime24 < b.endTime24 ∧ b.startTime24 < a.endTime24

instance : DecidablePred (fun p : Meeting × Meeting => clashes p.1 p.2) :=
  fun _ => by unfold clashes; infer_instance

instance (a b : Meeting) : Decidable (clashes a b) := by
  unfold clashes; infer_instance

/-- Boolean form of `clashes`, used to phrase `check_for_conflict` as a
`List.find?`. -/
def conflictsB (a b : Meeting) : Bool :=
  !(find_common_elements a.daysList b.daysList).isEmpty &&
    (decide (a.startTime24 < b.endTime24) &&
      decide (b.startTime24 < a.endTime24))

/-- The schedule invariant of the spec: meetings of distinct logical
sections never clash. -/
def noCrossClash (schedule : List Meeting) : Prop :=
  ∀ m1 ∈ schedule, ∀ m2 ∈ schedule,
    (m1.courseCode, m1.sec) ≠ (m2.courseCode, m2.sec) → ¬ clashes m1 m2

/-! ### Concrete sample data used by the witness and counterexample theorems -/

/-- A CS101 section A meeting, Monday 9:00–10:20. -/
def mtgCS101A : Meeting :=
  { courseCode := "CS101", sec := "A", daysList := ["M"], startTime24 := 900,
    endTime24 := 1020, startTimeDisp := "9:00 AM", endTimeDisp := "10:20 AM" }

/-- A MATH203 section C meeting, Monday 9:30–10:30 (overlaps `mtgCS101A`). -/
def mtgMATH203C : Meeting :=
  { courseCode := "MATH203", sec := "C", daysList := ["M"], startTime24 := 930,
    endTime24 := 1030, startTimeDisp := "9:30 AM", endTimeDisp := "10:30 AM" }

/-- A PHY101 section B meeting, Tuesday 9:00–10:20 (day-disjoint from
`mtgCS101A`). -/
def mtgPHY101B : Meeting :=
  { courseCode := "PHY101", sec := "B", daysList := ["T"], startTime24 := 900,
    endTime24 := 1020, startTimeDisp := "9:00 AM", endTimeDisp := "10:20 AM" }

/-- An ENG102 section D meeting, Monday 10:20–11:40: back-to-back with
`mtgCS101A` (starts exactly when it ends). -/
def mtgENG102D : Meeting :=
  { courseCode := "ENG102", sec := "D", daysList := ["M"],
    startTime24 := 1020, endTime24 := 1140, startTimeDisp := "10:20 AM",
    endTimeDisp := "11:40 AM" }

/-- A candidate meeting whose display strings render its numeric times,
Wednesday 900–1000. -/
def cand6 : Meeting :=
  { courseCode := "CS101", sec := "A", daysList := ["W"], startTime24 := 900,
    endTime24 := 1000, startTimeDisp := "900", endTimeDisp := "1000" }

/-- An existing meeting whose display strings render its numeric times,
Wednesday 930–1030: it overlaps `cand6` on 930–1000 only. -/
def exist6 : Meeting :=
  { courseCode := "MATH203", sec := "C", daysList := ["W"],
    startTime24 := 930, endTime24 := 1030, startTimeDisp := "930",
    endTimeDisp := "1030" }

/-- A demo catalog holding the three sections above. -/
def demoCatalog : List Meeting := [mtgCS101A, mtgMATH203C, mtgPHY101B]

/-- A demo interaction sequence: add CS101 A, then add PHY101 B. -/
def demoOps : List Op := [Op.add "CS101" "A", Op.add "PHY101" "B"]

/-! ## Basic lemmas about the embedded functions -/

theorem mem_find_common_elements (a b : List String) (x : String) :
    x ∈ find_common_elements a b ↔ x ∈ a ∧ x ∈ b := by
  simp [find_common_elements, List.mem_dedup, List.mem_filter]

theorem find_common_elements_isEmpty (a b : List String) :
    (find_common_elements a b).isEmpty = true ↔ ¬ ∃ x, x ∈ a ∧ x ∈ b := by
  rw [List.isEmpty_iff, List.eq_nil_iff_forall_not_mem]
  constructor
  · intro h ⟨x, hx⟩
    exact h x ((mem_find_common_elements a b x).mpr hx)
  · intro h x hx
    exact h ⟨x, (mem_find_common_elements a b x).mp hx⟩

theorem conflictsB_iff_clashes (a b : Meeting) :
    conflictsB a b = true ↔ clashes a b := by
  unfold conflictsB clashes
  rw [Bool.and_eq_true, Bool.and_eq_true, Bool.not_eq_true']
  rw [decide_eq_true_iff, decide_eq_true_iff]
  constructor
  · rintro ⟨hdays, h1, h2⟩
    refine ⟨?_, h1, h2⟩
    by_contra hno
    exact absurd ((find_common_elements_isEmpty _ _).mpr hno) (by simp [hdays])
  · rintro ⟨hdays, h1, h2⟩
    refine ⟨?_, h1, h2⟩
    rw [Bool.eq_false_iff]
    intro hEmpty
    exact (find_common_elements_isEmpty _ _).mp hEmpty hdays

/-- `check_for_conflict` is the `List.find?` of the boolean conflict test,
packaged by `mkClashDetails`. -/
theorem check_for_conflict_eq_find (c : Meeting) (schedule : List Meeting) :
    check_for_conflict c schedule =
      (schedule.find? (conflictsB c)).map (mkClashDetails c) := by
  induction schedule with
  | nil => rfl
  | cons e rest ih =>
    simp only [check_for_conflict]
    by_cases hEmpty :
        (find_common_elements c.daysList e.daysList).isEmpty = true
    · have hB : conflictsB c e = false := by simp [conflictsB, hEmpty]
      rw [if_pos hEmpty, List.find?_cons_of_neg _ (by simp [hB]), ih]
    · have hE : (find_common_elements c.daysList e.daysList).isEmpty = false :=
        Bool.eq_false_iff.mpr hEmpty
      by_cases hT : c.startTime24 < e.endTime24 ∧ e.startTime24 < c.endTime24
      · have hB : conflictsB c e = true := by simp [conflictsB, hE, hT.1, hT.2]
        rw [if_neg hEmpty, if_pos hT, List.find?_cons_of_pos _ hB,
          Option.map_some']
      · have hB : conflictsB c e = false := by
          rcases not_and_or.mp hT with h | h
          · simp [conflictsB, h]
          · simp [conflictsB, h]
        rw [if_neg hEmpty, if_neg hT, List.find?_cons_of_neg _ (by simp [hB]),
          ih]

theorem check_for_conflict_eq_none (c : Meeting) (schedule : List Meeting) :
    check_for_conflict c schedule = none ↔ ∀ e ∈ schedule, ¬ clashes c e := by
  rw [check_for_conflict_eq_find]
  rw [Option.map_eq_none', List.find?_eq_none]
  constructor
  · intro h e he hc
    exact absurd ((conflictsB_iff_clashes c e).mpr hc) (by simp [h e he])
  · intro h e he hB
    exact h e he ((conflictsB_iff_clashes c e).mp hB)

theorem clashes_symm (a b : Meeting) : clashes a b ↔ clashes b a := by
  unfold clashes
  constructor
  · rintro ⟨⟨x, hx1, hx2⟩, h1, h2⟩
    exact ⟨⟨x, hx2, hx1⟩, h2, h1⟩
  · rintro ⟨⟨x, hx1, hx2⟩, h1, h2⟩
    exact ⟨⟨x, hx2, hx1⟩, h2, h1⟩

theorem scanRows_eq_none (rows schedule : List Meeting) :
    scanRows rows schedule = none ↔
      ∀ r ∈ rows, check_for_conflict r schedule = none := by
  induction rows with
  | nil => simp [scanRows]
  | cons r rs ih =>
    rw [scanRows]
    cases h : check_for_conflict r schedule with
    | some d => simp [h]
    | none => simp [h, ih]

theorem check_for_conflict_isSome (c : Meeting) (s : List Meeting) :
    (check_for_conflict c s).isSome = true ↔ ∃ e ∈ s, clashes c e := by
  rw [Option.isSome_iff_ne_none, Ne, check_for_conflict_eq_none]
  push_neg
  rfl

theorem check_for_conflict_cons (c e : Meeting) (rest : List Meeting) :
    check_for_conflict c (e :: rest) =
      if clashes c e then some (mkClashDetails c e)
      else check_for_conflict c rest := by
  rw [check_for_conflict_eq_find, check_for_conflict_eq_find]
  by_cases h : clashes c e
  · rw [if_pos h,
      List.find?_cons_of_pos _ ((conflictsB_iff_clashes c e).mpr h),
      Option.map_some']
  · rw [if_neg h, List.find?_cons_of_neg _
      (fun hB => h ((conflictsB_iff_clashes c e).mp hB))]

theorem scanRows_eq_some (rows schedule : List Meeting) (d : ClashDetails) :
    scanRows rows schedule = some d ↔
      ∃ pre r post, rows = pre ++ r :: post ∧
        (∀ r' ∈ pre, check_for_conflict r' schedule = none) ∧
        check_for_conflict r schedule = some d := by
  induction rows with
  | nil =>
    constructor
    · intro h
      exact absurd h (by simp [scanRows])
    · rintro ⟨pre, r, post, hsplit, -, -⟩
      exact absurd hsplit (by simp)
  | cons row rows ih =>
    rw [scanRows]
    cases hrow : check_for_conflict row schedule with
    | some d' =>
      constructor
      · intro h
        exact ⟨[], row, rows, rfl, by simp, by rw [hrow, ← h]⟩
      · rintro ⟨pre, r, post, hsplit, hpre, hr⟩
        cases pre with
        | nil =>
          simp only [List.nil_append, List.cons.injEq] at hsplit
          rw [hsplit.1] at hrow
          rw [hrow] at hr
          exact hr
        | cons p ps =>
          simp only [List.cons_append, List.cons.injEq] at hsplit
          have : check_for_conflict row schedule = none := by
            rw [hsplit.1]
            exact hpre p (by simp)
          rw [this] at hrow
          exact absurd hrow (by simp)
    | none =>
      rw [ih]
      constructor
      · rintro ⟨pre, r, post, hsplit, hpre, hr⟩
        refine ⟨row :: pre, r, post, by rw [hsplit, List.cons_append], ?_, hr⟩
        intro r' hr'
        rcases List.mem_cons.mp hr' with h | h
        · rw [h]; exact hrow
        · exact hpre r' h
      · rintro ⟨pre, r, post, hsplit, hpre, hr⟩
        cases pre with
        | nil =>
          simp only [List.nil_append, List.cons.injEq] at hsplit
          rw [hsplit.1] at hrow
          rw [hrow] at hr
          exact absurd hr (by simp)
        | cons p ps =>
          simp only [List.cons_append, List.cons.injEq] at hsplit
          exact ⟨ps, r, post, hsplit.2,
            fun r' h => hpre r' (List.mem_cons_of_mem _ h), hr⟩

theorem scanRows_cons_none {row : Meeting} {rows schedule : List Meeting}
    (h : check_for_conflict row schedule = none) :
    scanRows (row :: rows) schedule = scanRows rows schedule := by
  rw [scanRows, h]

theorem sectionRows_key (catalog : List Meeting) (course_code s : String) :
    ∀ m ∈ sectionRows catalog course_code s,
      m.courseCode = course_code ∧ m.sec = s := by
  intro m hm
  have := List.of_mem_filter hm
  simpa using this

theorem add_fst_rejected_iff (catalog : List Meeting) (course_code s : String)
    (schedule : List Meeting) (d : ClashDetails) :
    (add_section_to_schedule catalog course_code s schedule).1 =
        AddResult.rejected d ↔
      scanRows (sectionRows catalog course_code s) schedule = some d := by
  unfold add_section_to_schedule
  by_cases hE : (sectionRows catalog course_code s).isEmpty = true
  · have hnil : sectionRows catalog course_code s = [] := by
      simpa [List.isEmpty_iff] using hE
    simp [hE, hnil, scanRows]
  · cases hscan : scanRows (sectionRows catalog course_code s) schedule with
    | some d' => simp [hE, hscan, eq_comm]
    | none =>
      by_cases hdup : schedule.any
          (fun m => m.courseCode == course_code && m.sec == s) = true
      · simp [hE, hscan, hdup]
      · simp [hE, hscan, hdup]

theorem add_snd_cases (catalog : List Meeting) (course_code s : String)
    (schedule : List Meeting) :
    (add_section_to_schedule catalog course_code s schedule).2 = schedule ∨
      ((add_section_to_schedule catalog course_code s schedule).2 =
          schedule ++ sectionRows catalog course_code s ∧
        scanRows (sectionRows catalog course_code s) schedule = none) := by
  unfold add_section_to_schedule
  by_cases hE : (sectionRows catalog course_code s).isEmpty = true
  · left; simp [hE]
  · cases hscan : scanRows (sectionRows catalog course_code s) schedule with
    | some d' => left; simp [hE, hscan]
    | none =>
      by_cases hdup : schedule.any
          (fun m => m.courseCode == course_code && m.sec == s) = true
      · left; simp [hE, hscan, hdup]
      · right
        refine ⟨?_, rfl⟩
        simp [hE, hscan, hdup]

theorem noCrossClash_add (catalog : List Meeting) (course_code s : String)
    (schedule : List Meeting) (hInv : noCrossClash schedule) :
    noCrossClash (add_section_to_schedule catalog course_code s schedule).2 := by
  rcases add_snd_cases catalog course_code s schedule with h | ⟨h, hscan⟩
  · rw [h]; exact hInv
  · rw [h]
    have hnone : ∀ r ∈ sectionRows catalog course_code s,
        ∀ e ∈ schedule, ¬ clashes r e := by
      intro r hr
      exact (check_for_conflict_eq_none r schedule).mp
        ((scanRows_eq_none _ _).mp hscan r hr)
    intro m1 hm1 m2 hm2 hne
    rcases List.mem_append.mp hm1 with h1 | h1 <;>
      rcases List.mem_append.mp hm2 with h2 | h2
    · exact hInv m1 h1 m2 h2 hne
    · intro hc
      exact hnone m2 h2 m1 h1 ((clashes_symm m1 m2).mp hc)
    · exact hnone m1 h1 m2 h2
    · obtain ⟨hc1, hs1⟩ := sectionRows_key catalog course_code s m1 h1
      obtain ⟨hc2, hs2⟩ := sectionRows_key catalog course_code s m2 h2
      exact absurd (by rw [hc1, hs1, hc2, hs2]) hne

theorem noCrossClash_remove (course_code s : String)
    (schedule : List Meeting) (hInv : noCrossClash schedule) :
    noCrossClash (remove_section_from_schedule course_code s schedule) := by
  intro m1 hm1 m2 hm2 hne
  exact hInv m1 (List.mem_of_mem_filter hm1) m2 (List.mem_of_mem_filter hm2) hne

theorem noCrossClash_applyOp (catalog : List Meeting) (schedule : List Meeting)
    (op : Op) (hInv : noCrossClash schedule) :
    noCrossClash (applyOp catalog schedule op) := by
  cases op with
  | add course_code s => exact noCrossClash_add catalog course_code s schedule hInv
  | remove course_code s => exact noCrossClash_remove course_code s schedule hInv

theorem noCrossClash_foldl (catalog : List Meeting) (ops : List Op) :
    ∀ schedule, noCrossClash schedule →
      noCrossClash (ops.foldl (applyOp catalog) schedule) := by
  induction ops with
  | nil => intro schedule h; exact h
  | cons op rest ih =>
    intro schedule h
    exact ih _ (noCrossClash_applyOp catalog schedule op h)

theorem remove_mem_iff (course_code s : String) (schedule : List Meeting)
    (m : Meeting) :
    m ∈ remove_section_from_schedule course_code s schedule ↔
      m ∈ schedule ∧ ¬ (m.courseCode = course_code ∧ m.sec = s) := by
  unfold remove_section_from_schedule
  rw [List.mem_filter]
  simp only [Bool.not_eq_true', Bool.and_eq_false_iff, beq_eq_false_iff_ne, Ne,
    not_and]
  tauto

theorem remove_eq_self (course_code s : String) (schedule : List Meeting)
    (h : ∀ m ∈ schedule, ¬ (m.courseCode = course_code ∧ m.sec = s)) :
    remove_section_from_schedule course_code s schedule = schedule := by
  unfold remove_section_from_schedule
  apply List.filter_eq_self.mpr
  intro m hm
  have hmk := h m hm
  simp only [Bool.not_eq_true', Bool.and_eq_false_iff, beq_eq_false_iff_ne, Ne]
  tauto

theorem remove_idem (course_code s : String) (schedule : List Meeting) :
    remove_section_from_schedule course_code s
        (remove_section_from_schedule course_code s schedule) =
      remove_section_from_schedule course_code s schedule := by
  unfold remove_section_from_schedule
  rw [List.filter_filter]
  simp [Bool.and_self]

theorem remove_sectionRows_eq_nil (catalog : List Meeting)
    (course_code s : String) :
    remove_section_from_schedule course_code s
        (sectionRows catalog course_code s) = [] := by
  unfold remove_section_from_schedule
  rw [List.filter_eq_nil_iff]
  intro m hm
  obtain ⟨h1, h2⟩ := sectionRows_key catalog course_code s m hm
  simp [h1, h2]

theorem remove_after_add (catalog : List Meeting) (course_code s : String)
    (schedule : List Meeting)
    (hfresh : ∀ m ∈ schedule, ¬ (m.courseCode = course_code ∧ m.sec = s)) :
    remove_section_from_schedule course_code s
        (add_section_to_schedule catalog course_code s schedule).2 =
      schedule := by
  rcases add_snd_cases catalog course_code s schedule with h | ⟨h, -⟩
  · rw [h]
    exact remove_eq_self course_code s schedule hfresh
  · rw [h]
    have happ : remove_section_from_schedule course_code s
        (schedule ++ sectionRows catalog course_code s) =
          remove_section_from_schedule course_code s schedule ++
            remove_section_from_schedule course_code s
              (sectionRows catalog course_code s) := by
      unfold remove_section_from_schedule
      exact List.filter_append _ _
    rw [happ, remove_eq_self course_code s schedule hfresh,
      remove_sectionRows_eq_nil, List.append_nil]

/-! ## The claims -/

/-- Claim C1: the spec says a duplicate add yields `AlreadyAdded`, distinct
from both success and error/conflict.  The code instead runs the conflict
check BEFORE the duplicate check, and a present section's meeting (with
`start < end`) clashes with its own copy in the schedule, so the second add
surfaces the clash `st.error` — the `already in your schedule` warning
branch is unreachable for any valid meeting.  This theorem evaluates the
code at the failing input: first add `added`, second add `rejected` (a
self-clash), with no mutation and exactly one copy of the meetings kept. -/
theorem claim_C1_secondAdd_rejected :
    (add_section_to_schedule demoCatalog "CS101" "A" []).1 = AddResult.added ∧
    (add_section_to_schedule demoCatalog "CS101" "A" []).2 = [mtgCS101A] ∧
    (add_section_to_schedule demoCatalog "CS101" "A" [mtgCS101A]).1 =
      AddResult.rejected (mkClashDetails mtgCS101A mtgCS101A) ∧
    (add_section_to_schedule demoCatalog "CS101" "A" [mtgCS101A]).2 =
      [mtgCS101A] ∧
    AddResult.rejected (mkClashDetails mtgCS101A mtgCS101A) ≠
      AddResult.alreadyAdded := by
  refine ⟨by decide, by decide, by decide, by decide, by decide⟩

/-- Claim C2: every schedule reachable from the empty schedule by any
sequence of add/remove interactions contains no two meetings of distinct
logical sections `(courseCode, section)` that share a day and overlap in
time. -/
theorem claim_C2_reachable_invariant (catalog : List Meeting) (ops : List Op)
    (m1 m2 : Meeting) (h1 : m1 ∈ runOps catalog ops)
    (h2 : m2 ∈ runOps catalog ops)
    (hne : (m1.courseCode, m1.sec) ≠ (m2.courseCode, m2.sec)) :
    ¬ clashes m1 m2 := by
  have hInv : noCrossClash (runOps catalog ops) := by
    unfold runOps
    exact noCrossClash_foldl catalog ops []
      (fun m hm => (List.not_mem_nil m hm).elim)
  exact hInv m1 h1 m2 h2 hne

/-- Witness for C2 at a concrete reachable schedule: after adding CS101 A
and PHY101 B from the demo catalog, the two resulting meetings belong to
distinct logical sections and do not clash. -/
theorem claim_C2_witness :
    mtgCS101A ∈ runOps demoCatalog demoOps ∧
    mtgPHY101B ∈ runOps demoCatalog demoOps ∧
    (mtgCS101A.courseCode, mtgCS101A.sec) ≠
      (mtgPHY101B.courseCode, mtgPHY101B.sec) ∧
    ¬ clashes mtgCS101A mtgPHY101B :=
  ⟨by decide, by decide, by decide,
    claim_C2_reachable_invariant demoCatalog demoOps mtgCS101A mtgPHY101B
      (by decide) (by decide) (by decide)⟩

/-- Claim C3: for a candidate and an existing meeting sharing at least one
day, `check_for_conflict` reports a conflict iff
`candidate.start < existing.end ∧ existing.start < candidate.end`; in
particular back-to-back meetings (equal endpoints) never conflict and any
positive overlap always conflicts. -/
theorem claim_C3_overlap_iff (c e : Meeting)
    (h : ∃ x, x ∈ c.daysList ∧ x ∈ e.daysList) :
    (check_for_conflict c [e]).isSome = true ↔
      (c.startTime24 < e.endTime24 ∧ e.startTime24 < c.endTime24) := by
  rw [check_for_conflict_isSome]
  constructor
  · rintro ⟨e', he', hc⟩
    rw [List.mem_singleton] at he'
    subst he'
    exact hc.2
  · intro ht
    exact ⟨e, List.mem_singleton.mpr rfl, h, ht⟩

/-- Witness for C3 at back-to-back meetings on a common Monday:
CS101 A 9:00–10:20 against ENG102 D 10:20–11:40. -/
theorem claim_C3_witness :
    (∃ x, x ∈ mtgCS101A.daysList ∧ x ∈ mtgENG102D.daysList) ∧
    ((check_for_conflict mtgCS101A [mtgENG102D]).isSome = true ↔
      (mtgCS101A.startTime24 < mtgENG102D.endTime24 ∧
        mtgENG102D.startTime24 < mtgCS101A.endTime24)) :=
  ⟨by decide, claim_C3_overlap_iff mtgCS101A mtgENG102D (by decide)⟩

/-- Claim C4: `add_section_to_schedule` rejects with details `d` exactly
when the candidate's component rows split as `pre ++ r :: post` where every
component before `r` passes the conflict check against the full existing
schedule and `r` is the first component that conflicts (whose first clashing
pair produces `d`): every component is tested, any single component's
conflict rejects the whole logical section, and the scan stops at the first
conflicting component. -/
theorem claim_C4_componentwise_short_circuit (catalog : List Meeting)
    (course_code s : String) (schedule : List Meeting) (d : ClashDetails) :
    (add_section_to_schedule catalog course_code s schedule).1 =
        AddResult.rejected d ↔
      ∃ pre r post, sectionRows catalog course_code s = pre ++ r :: post ∧
        (∀ r' ∈ pre, check_for_conflict r' schedule = none) ∧
        check_for_conflict r schedule = some d := by
  rw [add_fst_rejected_iff, scanRows_eq_some]

/-- Claim C5: `check_for_conflict` scans the schedule in stored order and
returns the clash built from the first existing meeting with both a
non-empty day intersection and a time overlap, skipping every earlier
meeting without conflict (in particular all day-disjoint ones) and never
aggregating more than that first clash. -/
theorem claim_C5_first_clash_in_order (c : Meeting) (schedule : List Meeting)
    (d : ClashDetails) :
    check_for_conflict c schedule = some d ↔
      ∃ pre e post, schedule = pre ++ e :: post ∧
        (∀ e' ∈ pre, ¬ clashes c e') ∧ clashes c e ∧
        d = mkClashDetails c e := by
  induction schedule with
  | nil =>
    constructor
    · intro h
      exact absurd h (by simp [check_for_conflict])
    · rintro ⟨pre, e, post, hsplit, -, -, -⟩
      exact absurd hsplit (by simp)
  | cons e0 rest ih =>
    rw [check_for_conflict_cons]
    by_cases h : clashes c e0
    · rw [if_pos h]
      constructor
      · intro hd
        exact ⟨[], e0, rest, rfl, by simp, h, (Option.some_inj.mp hd).symm⟩
      · rintro ⟨pre, e, post, hsplit, hpre, hce, hd⟩
        cases pre with
        | nil =>
          simp only [List.nil_append, List.cons.injEq] at hsplit
          rw [hd, hsplit.1]
        | cons p ps =>
          simp only [List.cons_append, List.cons.injEq] at hsplit
          rw [hsplit.1] at h
          exact absurd h (hpre p (List.mem_cons_self p ps))
    · rw [if_neg h, ih]
      constructor
      · rintro ⟨pre, e, post, hsplit, hpre, hce, hd⟩
        refine ⟨e0 :: pre, e, post, by rw [hsplit, List.cons_append], ?_,
          hce, hd⟩
        intro e' he'
        rcases List.mem_cons.mp he' with h' | h'
        · rw [h']; exact h
        · exact hpre e' h'
      · rintro ⟨pre, e, post, hsplit, hpre, hce, hd⟩
        cases pre with
        | nil =>
          simp only [List.nil_append, List.cons.injEq] at hsplit
          rw [← hsplit.1] at hce
          exact absurd hce h
        | cons p ps =>
          simp only [List.cons_append, List.cons.injEq] at hsplit
          exact ⟨ps, e, post, hsplit.2,
            fun e' h' => hpre e' (List.mem_cons_of_mem _ h'), hce, hd⟩

/-- Claim C6 counterexample: the claim says the clash payload carries the
overlapping time range (the intersection of the two intervals).  With a
candidate 900–1000 and an existing meeting 930–1030 on a common Wednesday
(display strings rendering the numeric times), the intersection is 930–1000,
but the payload's `Time_Range` is built from the candidate's own display
times only (`app.py` line 80) and reads `900 - 1000`, not `930 - 1000`. -/
theorem claim_C6_counterexample :
    (check_for_conflict cand6 [exist6]).map ClashDetails.timeRange =
        some "900 - 1000" ∧
    max cand6.startTime24 exist6.startTime24 = 930 ∧
    min cand6.endTime24 exist6.endTime24 = 1000 ∧
    ("900 - 1000" : String) ≠ "930 - 1000" := by
  refine ⟨by decide, by decide, by decide, by decide⟩

/-- Claim C6 as amended: whenever `check_for_conflict` reports a conflict,
the payload carries the clashing logical section (`courseCode section` of
the existing meeting) and the joined day intersection of the two meetings,
but the time range is the CANDIDATE's own display start/end, not the
intersection of the two intervals. -/
theorem claim_C6_amended_payload (c : Meeting) (schedule : List Meeting)
    (d : ClashDetails) (h : check_for_conflict c schedule = some d) :
    ∃ e ∈ schedule, clashes c e ∧
      d.clashingSection = e.courseCode ++ " " ++ e.sec ∧
      d.conflictDays = String.intercalate ", "
        (find_common_elements c.daysList e.daysList) ∧
      (∀ x, x ∈ find_common_elements c.daysList e.daysList ↔
        x ∈ c.daysList ∧ x ∈ e.daysList) ∧
      d.timeRange = c.startTimeDisp ++ " - " ++ c.endTimeDisp := by
  rw [check_for_conflict_eq_find] at h
  obtain ⟨e, hfind, hd⟩ := Option.map_eq_some'.mp h
  subst hd
  exact ⟨e, List.mem_of_find?_eq_some hfind,
    (conflictsB_iff_clashes c e).mp (List.find?_some hfind), rfl, rfl,
    fun x => mem_find_common_elements _ _ x, rfl⟩

/-- Witness for the amended C6 at the concrete overlap of `cand6` and
`exist6`. -/
theorem claim_C6_witness :
    ∃ e ∈ [exist6], clashes cand6 e ∧
      (mkClashDetails cand6 exist6).clashingSection =
        e.courseCode ++ " " ++ e.sec ∧
      (mkClashDetails cand6 exist6).conflictDays = String.intercalate ", "
        (find_common_elements cand6.daysList e.daysList) ∧
      (∀ x, x ∈ find_common_elements cand6.daysList e.daysList ↔
        x ∈ cand6.daysList ∧ x ∈ e.daysList) ∧
      (mkClashDetails cand6 exist6).timeRange =
        cand6.startTimeDisp ++ " - " ++ cand6.endTimeDisp :=
  claim_C6_amended_payload cand6 [exist6] (mkClashDetails cand6 exist6)
    (by decide)

/-- Claim C7: if the multi-meeting conflict scan over the candidate's
component rows finds a conflict `d`, `add_section_to_schedule` returns
`Rejected d` and leaves the schedule completely unchanged. -/
theorem claim_C7_reject_no_mutation (catalog : List Meeting)
    (course_code s : String) (schedule : List Meeting) (d : ClashDetails)
    (h : scanRows (sectionRows catalog course_code s) schedule = some d) :
    add_section_to_schedule catalog course_code s schedule =
      (AddResult.rejected d, schedule) := by
  have hne : (sectionRows catalog course_code s).isEmpty = false := by
    cases hrows : sectionRows catalog course_code s with
    | nil => rw [hrows] at h; exact absurd h (by simp [scanRows])
    | cons a l => rfl
  unfold add_section_to_schedule
  simp [hne, h]

/-- Witness for C7: adding MATH203 C while CS101 A occupies Monday
9:00–10:20 is rejected with the clash details and no mutation. -/
theorem claim_C7_witness :
    add_section_to_schedule demoCatalog "MATH203" "C" [mtgCS101A] =
      (AddResult.rejected (mkClashDetails mtgMATH203C mtgCS101A),
        [mtgCS101A]) :=
  claim_C7_reject_no_mutation demoCatalog "MATH203" "C" [mtgCS101A]
    (mkClashDetails mtgMATH203C mtgCS101A) (by decide)

/-- Claim C8 counterexample: the claim says calling
`remove_section_from_schedule` twice for the same key yields `Removed` then
`NotFound`.  The Python function returns `None` and surfaces no message at
all: its entire observable output is the updated schedule list, and at the
concrete schedule `[mtgCS101A]` the first and the second call produce
identical results — there is no reported `Removed`/`NotFound` distinction
anywhere in the code. -/
theorem claim_C8_counterexample :
    remove_section_from_schedule "CS101" "A" [mtgCS101A] = [] ∧
    remove_section_from_schedule "CS101" "A"
        (remove_section_from_schedule "CS101" "A" [mtgCS101A]) =
      remove_section_from_schedule "CS101" "A" [mtgCS101A] := by
  refine ⟨by decide, by decide⟩

/-- Claim C8 as amended: `remove_section_from_schedule` removes every
meeting whose `(courseCode, section)` matches and no others, preserving the
relative order of the remaining meetings (a sublist); it reports no outcome,
so a second call for the same key is an indistinguishable no-op; and after
an add of a key not already present followed by a remove of that key the
schedule contents are identical to having never added it. -/
theorem claim_C8_amended_remove (catalog : List Meeting)
    (course_code s : String) (schedule : List Meeting) :
    (remove_section_from_schedule course_code s schedule).Sublist schedule ∧
    (∀ m, m ∈ remove_section_from_schedule course_code s schedule ↔
      m ∈ schedule ∧ ¬ (m.courseCode = course_code ∧ m.sec = s)) ∧
    remove_section_from_schedule course_code s
        (remove_section_from_schedule course_code s schedule) =
      remove_section_from_schedule course_code s schedule ∧
    ((∀ m ∈ schedule, ¬ (m.courseCode = course_code ∧ m.sec = s)) →
      remove_section_from_schedule course_code s
          (add_section_to_schedule catalog course_code s schedule).2 =
        schedule) :=
  ⟨List.filter_sublist schedule,
    remove_mem_iff course_code s schedule,
    remove_idem course_code s schedule,
    fun hfresh => remove_after_add catalog course_code s schedule hfresh⟩

/-- Witness for the amended C8: add CS101 A to the empty schedule, then
remove it — the schedule is empty again. -/
theorem claim_C8_witness :
    remove_section_from_schedule "CS101" "A"
        (add_section_to_schedule demoCatalog "CS101" "A" []).2 = [] :=
  (claim_C8_amended_remove demoCatalog "CS101" "A" []).2.2.2
    (fun m hm => absurd hm (List.not_mem_nil m))

/-- Claim C9: conflict detection is commutative in the two meetings —
checking A against the one-meeting schedule [B] reports a conflict iff
checking B against [A] does. -/
theorem claim_C9_symmetry (a b : Meeting) :
    (check_for_conflict a [b]).isSome = (check_for_conflict b [a]).isSome := by
  rw [Bool.eq_iff_iff, check_for_conflict_isSome, check_for_conflict_isSome]
  constructor
  · rintro ⟨e, he, hc⟩
    rw [List.mem_singleton] at he
    rw [he] at hc
    exact ⟨a, List.mem_singleton.mpr rfl, (clashes_symm a b).mp hc⟩
  · rintro ⟨e, he, hc⟩
    rw [List.mem_singleton] at he
    rw [he] at hc
    exact ⟨b, List.mem_singleton.mpr rfl, (clashes_symm b a).mp hc⟩

/-- Claim C10: when the `(courseCode, section)` key matches no catalog row,
`add_section_to_schedule` reports the `Section data not found` error and
leaves every schedule state unchanged, with no conflict-check outcome. -/
theorem claim_C10_missing_catalog_key (catalog : List Meeting)
    (course_code s : String) (schedule : List Meeting)
    (h : sectionRows catalog course_code s = []) :
    add_section_to_schedule catalog course_code s schedule =
      (AddResult.notFound, schedule) := by
  unfold add_section_to_schedule
  simp [h]

/-- Witness for C10: adding the non-existent BIO110 Z from the demo catalog
reports `notFound` and keeps the schedule. -/
theorem claim_C10_witness :
    add_section_to_schedule demoCatalog "BIO110" "Z" [mtgCS101A] =
      (AddResult.notFound, [mtgCS101A]) :=
  claim_C10_missing_catalog_key demoCatalog "BIO110" "Z" [mtgCS101A]
    (by decide)
